import Mathlib

/-!
Verification development for the ember terminal media browser.

The definitions below are a shallow embedding of the Go source:

* internal/player/mpv.go   — the mpv player controller: argument
  construction, the incremental scan of the player output stream for
  "POS:<seconds>" status lines, and the PlayMultiple entry point.
* internal/storage/store.go — server profiles, the leading-token group
  key of a profile display name, and SaveServerToken.
* internal/ui/app.go        — the Model state (items, caches,
  navigation stack, server management), syncItemState, goBack,
  pushNav, resetForServerSwitch, handleServerEditKey,
  loadVisibleImages, and the ping fan-out over the active group.

Go slices of structs become Lean lists, Go maps become association
lists with replace-on-insert semantics, machine integers become Int or
Nat, and effectful boundaries (subprocess I/O, HTTP) are passed in as
explicit environment values.  Termination of the character scanner is
proved by well-founded recursion on the remaining character count.
-/

namespace Ember

/-! ## Association lists: the shallow embedding of Go maps -/

/-- Lookup in an association list, mirroring a Go map read. -/
def alLookup {α β : Type} [DecidableEq α] : List (α × β) → α → Option β
  | [], _ => none
  | (k, v) :: rest, key => if k = key then some v else alLookup rest key

/-- Insert-or-replace in an association list, mirroring a Go map assignment. -/
def alUpsert {α β : Type} [DecidableEq α] : List (α × β) → α → β → List (α × β)
  | [], key, v => [(key, v)]
  | (k, w) :: rest, key, v =>
      if k = key then (key, v) :: rest else (k, w) :: alUpsert rest key v

/-- Remove a key from an association list, mirroring a Go map delete. -/
def alErase {α β : Type} [DecidableEq α] (al : List (α × β)) (key : α) : List (α × β) :=
  al.filter (fun p => p.1 ≠ key)

theorem alLookup_alUpsert {α β : Type} [DecidableEq α]
    (al : List (α × β)) (k : α) (v : β) (i : α) :
    alLookup (alUpsert al k v) i = if k = i then some v else alLookup al i := by
  induction al with
  | nil =>
    by_cases h : k = i <;> simp [alUpsert, alLookup, h]
  | cons p rest ih =>
    obtain ⟨pk, pv⟩ := p
    by_cases hpk : pk = k
    · subst hpk
      by_cases h : pk = i <;> simp [alUpsert, alLookup, h]
    · by_cases h : pk = i
      · subst h
        have hk : ¬ k = pk := fun hh => hpk hh.symm
        simp [alUpsert, alLookup, hpk, hk]
      · simp [alUpsert, alLookup, hpk, h, ih]

theorem alUpsert_length_of_lookup_none {α β : Type} [DecidableEq α]
    (al : List (α × β)) (k : α) (v : β) (h : alLookup al k = none) :
    (alUpsert al k v).length = al.length + 1 := by
  induction al with
  | nil => simp [alUpsert]
  | cons p rest ih =>
    obtain ⟨pk, pv⟩ := p
    by_cases hpk : pk = k
    · simp [alLookup, hpk] at h
    · simp [alLookup, hpk] at h
      simp [alUpsert, hpk, ih h]

theorem mem_alUpsert {α β : Type} [DecidableEq α]
    (al : List (α × β)) (k : α) (v : β) (p : α × β)
    (h : p ∈ alUpsert al k v) : p = (k, v) ∨ p ∈ al := by
  induction al with
  | nil => simpa [alUpsert] using h
  | cons q rest ih =>
    obtain ⟨qk, qv⟩ := q
    by_cases hqk : qk = k
    · subst hqk
      simp [alUpsert] at h
      rcases h with h | h
      · left; simp [h]
      · right; simp [h]
    · simp [alUpsert, hqk] at h
      rcases h with h | h
      · right; simp [h]
      · rcases ih h with h2 | h2
        · left; exact h2
        · right; simp [h2]

theorem mem_alErase {α β : Type} [DecidableEq α]
    (al : List (α × β)) (key : α) (p : α × β)
    (h : p ∈ alErase al key) : p ∈ al :=
  List.mem_of_mem_filter h

/-! ## Player controller (internal/player/mpv.go)

The mpv process writes status lines of the form "POS:<seconds>" to its
standard output (configured through --term-status-msg).  The controller
reads the stream chunk by chunk and scans each chunk with the regular
expression POS:(\d+(?:\.\d+)?), keeping the value of the last match of
the last chunk whose value was positive. -/

/-- Split the maximal leading run of decimal digits off a character list
(the greedy digit part of the regular expression). -/
def takeDigits : List Char → List Char × List Char
  | [] => ([], [])
  | c :: cs =>
      if c.isDigit then
        let p := takeDigits cs
        (c :: p.1, p.2)
      else ([], c :: cs)

theorem takeDigits_snd_length (cs : List Char) :
    (takeDigits cs).2.length ≤ cs.length := by
  induction cs with
  | nil => simp [takeDigits]
  | cons c cs ih =>
    by_cases h : c.isDigit
    · simp only [takeDigits, h, if_pos]
      exact Nat.le_succ_of_le ih
    · simp [takeDigits, h]

/-- The optional fractional group of POS:(\d+(?:\.\d+)?).  Given the
characters following the integer digits, return the characters the
match additionally consumes (a dot plus at least one digit, greedily)
and the remainder of the input.  Without a digit after the dot the
optional group matches nothing and the match ends before the dot. -/
def fracPart : List Char → List Char × List Char
  | '.' :: r2 =>
      match takeDigits r2 with
      | ([], _) => ([], '.' :: r2)
      | (f :: fs, rest2) => ('.' :: f :: fs, rest2)
  | other => ([], other)

theorem fracPart_snd_length (cs : List Char) :
    (fracPart cs).2.length ≤ cs.length := by
  match cs with
  | [] => simp [fracPart]
  | c :: r2 =>
    by_cases hdot : c = '.'
    · subst hdot
      cases h2 : takeDigits r2 with
      | mk fs rest2 =>
        cases fs with
        | nil => simp [fracPart, h2]
        | cons f fs =>
          have hr2 : rest2.length ≤ r2.length := by
            have := takeDigits_snd_length r2
            rw [h2] at this
            exact this
          simp only [fracPart, h2, List.length_cons]
          omega
    · have : fracPart (c :: r2) = ([], c :: r2) := by
        unfold fracPart
        split
        · next heq =>
            exfalso
            exact hdot (List.cons.injEq _ _ _ _ ▸ heq).1
        · rfl
      simp [this]

/-- Try to match POS:(\d+(?:\.\d+)?) at the head of the character list.
On success, return the text of the capture group together with the
characters following the whole match (the position from which the Go
regexp FindAll scan resumes). -/
def tryPosMatch (cs : List Char) : Option (String × List Char) :=
  if cs.take 4 = ['P', 'O', 'S', ':'] then
    match takeDigits (cs.drop 4) with
    | ([], _) => none
    | (d :: ds, rest1) =>
        let fp := fracPart rest1
        some (String.mk ((d :: ds) ++ fp.1), fp.2)
  else none

theorem tryPosMatch_length {cs : List Char} {cap : String} {rem : List Char}
    (h : tryPosMatch cs = some (cap, rem)) : rem.length < cs.length := by
  unfold tryPosMatch at h
  split at h
  · next htake =>
    have hlen4 : 4 ≤ cs.length := by
      have := congrArg List.length htake
      simp [List.length_take] at this
      omega
    cases h1 : takeDigits (cs.drop 4) with
    | mk ds rest1 =>
      cases ds with
      | nil => rw [h1] at h; simp at h
      | cons d ds =>
        rw [h1] at h
        simp only [Option.some.injEq, Prod.mk.injEq] at h
        obtain ⟨-, h2⟩ := h
        have hr1 : rest1.length ≤ (cs.drop 4).length := by
          have := takeDigits_snd_length (cs.drop 4)
          rw [h1] at this
          exact this
        have hrem : rem.length ≤ rest1.length := by
          rw [← h2]
          exact fracPart_snd_length rest1
        have hdrop : (cs.drop 4).length = cs.length - 4 := by
          simp [List.length_drop]
        omega
  · exact absurd h (by simp)

/-- All capture-group texts of the POS status regular expression in a
chunk, in scan order: at each position either the pattern matches (the
scan resumes after the match, matches do not overlap) or the scan
advances one character.  Recursion is on a character-count bound: a
step always consumes at least one input character, so a bound equal to
the input length never runs out and keeps the function reducible in
the kernel. -/
def posCapturesAux : Nat → List Char → List String
  | 0, _ => []
  | bound + 1, cs =>
    match tryPosMatch cs with
    | some p => p.1 :: posCapturesAux bound p.2
    | none =>
      match cs with
      | [] => []
      | _ :: cs2 => posCapturesAux bound cs2

def posCaptures (cs : List Char) : List String :=
  posCapturesAux cs.length cs

/-- Numeric value of a run of decimal digits. -/
def digitsToNat (ds : List Char) : Nat :=
  ds.foldl (fun acc c => acc * 10 + (c.toNat - '0'.toNat)) 0

/-- Value of a capture of the form \d+(\.\d+)? after strconv.ParseFloat
and the int64 conversion of the Go source, which truncates toward zero:
the result is the value of the integer-digit part.  (Binary float
rounding, observable only beyond 2 to the 53rd, is not modelled; a
string without a leading digit is a ParseFloat error, reported as
none.) -/
def parseCaptureValue (s : String) : Option Int :=
  let intPart := s.data.takeWhile (fun c => c.isDigit)
  if intPart.isEmpty then none else some (Int.ofNat (digitsToNat intPart))

/-- parsePositionFromOutput of mpv.go: run the POS regular expression
over one chunk of player output, take the last match, and parse its
capture; any failure (no match, malformed number) yields 0. -/
def parsePositionFromOutput (data : String) : Int :=
  match (posCaptures data.data).getLast? with
  | none => 0
  | some cap =>
      match parseCaptureValue cap with
      | none => 0
      | some v => v

/-- readPlaybackPosition of mpv.go: fold over the chunks delivered by
successive Read calls on the player standard output, remembering the
parsed value of the most recent chunk whose value was positive (the
loop body is readStep); if no positive value was ever seen, return the
fallback. -/
def readStep (acc : Int) (c : String) : Int :=
  let pos := parsePositionFromOutput c
  if 0 < pos then pos else acc

def readPlaybackPosition (chunks : List String) (fallback : Int) : Int :=
  let lastPos := chunks.foldl readStep 0
  if lastPos = 0 then fallback else lastPos

/-- Result of a player run (PlayResult of mpv.go): the Wait error, if
any, and the recovered playback position in seconds. -/
structure PlayResult where
  err : Option String
  positionSec : Int
deriving Repr, DecidableEq

/-- A player run together with the observable side effect of whether a
player process was actually spawned (cmd.Start reached and successful). -/
structure PlayOutcome where
  result : PlayResult
  spawned : Bool
deriving Repr, DecidableEq

/-- The effectful environment of one PlayMultiple call: the resolved
player binary path (empty when no binary was found at startup), the
possible errors of the StdoutPipe, Start and Wait calls, and the chunks
delivered by reading the process standard output until EOF. -/
structure PlayerEnv where
  mpvPath : String
  pipeErr : Option String
  startErr : Option String
  output : List String
  waitErr : Option String
deriving Repr, DecidableEq

/-- buildMPVArgs of mpv.go. -/
def buildMPVArgs (title : String) (subtitleURLs urls : List String)
    (startPositionSec : Int) (startIndex : Int) : List String :=
  let args := ["--hwdec=auto", "--vo=gpu", "--fullscreen",
    "--title=" ++ title,
    "--slang=chi,zho,zh,chs,cht,cn,chinese",
    "--term-playing-msg=",
    "--term-status-msg=POS:$\x7btime-pos\x7d",
    "--msg-level=all=no,statusline=status"]
  let args := if 0 < startPositionSec then args ++ ["--start=" ++ toString startPositionSec] else args
  let args := if 0 < startIndex then args ++ ["--playlist-start=" ++ toString startIndex] else args
  let args := args ++ subtitleURLs.map (fun u => "--sub-file=" ++ u)
  args ++ urls

/-- PlayMultiple of mpv.go.  Guards first on a missing player binary,
then on an empty queue; afterwards the pipe, spawn, read and wait
stages run in order against the environment. -/
def PlayMultiple (env : PlayerEnv) (urls : List String) (title : String)
    (subtitleURLs : List String) (startPositionSec : Int) (startIndex : Int) :
    PlayOutcome :=
  if env.mpvPath = "" then
    { result := { err := some "executable file not found", positionSec := 0 }, spawned := false }
  else if urls.isEmpty then
    { result := { err := some "no URLs provided", positionSec := 0 }, spawned := false }
  else
    match env.pipeErr with
    | some e => { result := { err := some e, positionSec := 0 }, spawned := false }
    | none =>
      match env.startErr with
      | some e => { result := { err := some e, positionSec := 0 }, spawned := false }
      | none =>
        { result := { err := env.waitErr,
                      positionSec := readPlaybackPosition env.output startPositionSec },
          spawned := true }

/-- Play of mpv.go: a one-element queue starting at index 0. -/
def Play (env : PlayerEnv) (url title : String) (subtitleURLs : List String)
    (startPositionSec : Int) : PlayOutcome :=
  PlayMultiple env [url] title subtitleURLs startPositionSec 0

/-! ## Properties of the playback-position recovery -/

theorem readStep_pos (acc : Int) (c : String)
    (h : 0 < parsePositionFromOutput c) : readStep acc c = parsePositionFromOutput c := by
  simp [readStep, h]

theorem readStep_zero (acc : Int) (c : String)
    (h : parsePositionFromOutput c = 0) : readStep acc c = acc := by
  simp [readStep, h]

theorem foldl_readStep_all_zero (chunks : List String) (a : Int)
    (h : ∀ c ∈ chunks, parsePositionFromOutput c = 0) :
    chunks.foldl readStep a = a := by
  induction chunks generalizing a with
  | nil => rfl
  | cons c cs ih =>
    have hc : parsePositionFromOutput c = 0 := h c (by simp)
    have hcs : ∀ x ∈ cs, parsePositionFromOutput x = 0 := fun x hx => h x (by simp [hx])
    simp only [List.foldl_cons, readStep_zero a c hc]
    exact ih a hcs

theorem readPlaybackPosition_all_zero (chunks : List String) (fallback : Int)
    (h : ∀ c ∈ chunks, parsePositionFromOutput c = 0) :
    readPlaybackPosition chunks fallback = fallback := by
  simp [readPlaybackPosition, foldl_readStep_all_zero chunks 0 h]

theorem parsePositionFromOutput_of_no_captures (c : String)
    (h : posCaptures c.data = []) : parsePositionFromOutput c = 0 := by
  simp [parsePositionFromOutput, h]

/-- Claim C2: for every output stream the player process emits whose
status lines each carry a positive offset, PlayMultiple returns the
value of the last status chunk delivered before the process exits —
last-writer-wins, not the maximum and not an average. -/
theorem claim_C2_last_observed_position (env : PlayerEnv) (urls : List String)
    (title : String) (subtitleURLs : List String)
    (startPositionSec startIndex : Int)
    (chunks : List String) (c : String)
    (hmpv : env.mpvPath ≠ "") (hurls : ¬ urls.isEmpty)
    (hpipe : env.pipeErr = none) (hstart : env.startErr = none)
    (hout : env.output = chunks ++ [c])
    (hpos : ∀ x ∈ env.output, 0 < parsePositionFromOutput x) :
    (PlayMultiple env urls title subtitleURLs startPositionSec startIndex).result.positionSec
      = parsePositionFromOutput c := by
  have hc : 0 < parsePositionFromOutput c := hpos c (by rw [hout]; simp)
  have hread : readPlaybackPosition env.output startPositionSec = parsePositionFromOutput c := by
    rw [hout]
    unfold readPlaybackPosition
    rw [List.foldl_append]
    simp only [List.foldl_cons, List.foldl_nil, readStep_pos _ c hc]
    simp [show parsePositionFromOutput c ≠ 0 by omega]
  simp [PlayMultiple, hmpv, hurls, hpipe, hstart, hread]

/-- Witness for claim C2: status lines with offsets 30, 95, 40
delivered in that order return 40 — the last observed value, not the
maximum 95. -/
theorem claim_C2_witness :
    (PlayMultiple ⟨"/usr/local/bin/mpv", none, none, ["POS:30", "POS:95", "POS:40"], none⟩
      ["http://s/stream.mkv"] "Movie" [] 0 0).result.positionSec = 40 := by
  have h := claim_C2_last_observed_position
    ⟨"/usr/local/bin/mpv", none, none, ["POS:30", "POS:95", "POS:40"], none⟩
    ["http://s/stream.mkv"] "Movie" [] 0 0
    ["POS:30", "POS:95"] "POS:40"
    (by decide) (by decide) rfl rfl rfl (by decide)
  rw [h]
  decide

/-- Claim C3: for every start position, if the player process exits
(normally or abnormally) without any position offset ever being
observed in its output, PlayMultiple returns exactly the
caller-supplied start position, not zero. -/
theorem claim_C3_start_position_fallback (env : PlayerEnv) (urls : List String)
    (title : String) (subtitleURLs : List String)
    (startPositionSec startIndex : Int)
    (hmpv : env.mpvPath ≠ "") (hurls : ¬ urls.isEmpty)
    (hpipe : env.pipeErr = none) (hstart : env.startErr = none)
    (hout : ∀ c ∈ env.output, posCaptures c.data = []) :
    (PlayMultiple env urls title subtitleURLs startPositionSec startIndex).result.positionSec
      = startPositionSec := by
  have hz : ∀ c ∈ env.output, parsePositionFromOutput c = 0 :=
    fun c hc => parsePositionFromOutput_of_no_captures c (hout c hc)
  simp [PlayMultiple, hmpv, hurls, hpipe, hstart,
    readPlaybackPosition_all_zero env.output startPositionSec hz]

/-- Witness for claim C3: a process that exits with an error after
printing no status line at all returns start position 120. -/
theorem claim_C3_witness :
    (PlayMultiple ⟨"/usr/local/bin/mpv", none, none, ["opening stream", "crash"], some "exit status 2"⟩
      ["http://s/stream.mkv"] "Movie" [] 120 0).result.positionSec = 120 :=
  claim_C3_start_position_fallback
    ⟨"/usr/local/bin/mpv", none, none, ["opening stream", "crash"], some "exit status 2"⟩
    ["http://s/stream.mkv"] "Movie" [] 120 0
    (by decide) (by decide) rfl rfl (by decide)

/-- Claim C7: for every title, subtitle list, start position and start
index, calling PlayMultiple with an empty queue of stream URLs returns
a failure result and spawns no player process. -/
theorem claim_C7_empty_queue_fails (env : PlayerEnv) (title : String)
    (subtitleURLs : List String) (startPositionSec startIndex : Int) :
    (PlayMultiple env [] title subtitleURLs startPositionSec startIndex).result.err.isSome
    ∧ (PlayMultiple env [] title subtitleURLs startPositionSec startIndex).spawned = false := by
  by_cases h : env.mpvPath = "" <;> simp [PlayMultiple, h]

/-- Claim C9: a position offset parsed as zero is never recorded as
the last observed position.  First conjunct: if every chunk of the
process output parses to offset 0 (for example a stream of POS:0
status lines), PlayMultiple returns the caller-supplied start
position.  Second conjunct: appending a zero-parsing chunk to any
output stream never changes the recovered position, so an observed
zero cannot overwrite a prior nonzero value. -/
theorem claim_C9_zero_never_recorded :
    (∀ (env : PlayerEnv) (urls : List String) (title : String)
        (subtitleURLs : List String) (startPositionSec startIndex : Int),
      env.mpvPath ≠ "" → ¬ urls.isEmpty → env.pipeErr = none → env.startErr = none →
      (∀ c ∈ env.output, parsePositionFromOutput c = 0) →
      (PlayMultiple env urls title subtitleURLs startPositionSec startIndex).result.positionSec
        = startPositionSec)
    ∧ (∀ (chunks : List String) (c : String) (fallback : Int),
      parsePositionFromOutput c = 0 →
      readPlaybackPosition (chunks ++ [c]) fallback = readPlaybackPosition chunks fallback) := by
  constructor
  · intro env urls title subtitleURLs startPositionSec startIndex hmpv hurls hpipe hstart hz
    simp [PlayMultiple, hmpv, hurls, hpipe, hstart,
      readPlaybackPosition_all_zero env.output startPositionSec hz]
  · intro chunks c fallback hc
    unfold readPlaybackPosition
    rw [List.foldl_append]
    simp [readStep_zero _ c hc]

/-- Witness for claim C9: a stream consisting only of POS:0 status
lines returns start position 120, and appending POS:0 after POS:30
still returns 30. -/
theorem claim_C9_witness :
    (PlayMultiple ⟨"/usr/local/bin/mpv", none, none, ["POS:0", "POS:0"], none⟩
      ["http://s/stream.mkv"] "Movie" [] 120 0).result.positionSec = 120
    ∧ readPlaybackPosition (["POS:30"] ++ ["POS:0"]) 7 = readPlaybackPosition ["POS:30"] 7 := by
  constructor
  · exact claim_C9_zero_never_recorded.1
      ⟨"/usr/local/bin/mpv", none, none, ["POS:0", "POS:0"], none⟩
      ["http://s/stream.mkv"] "Movie" [] 120 0
      (by decide) (by decide) rfl rfl (by decide)
  · exact claim_C9_zero_never_recorded.2 ["POS:30"] "POS:0" 7 (by decide)

/-! ## Storage layer (internal/storage/store.go) -/

/-- A server profile (Server of store.go). -/
structure Server where
  name : String
  url : String
  username : String
  password : String
  userID : String
  token : String
deriving Repr, DecidableEq, Inhabited

/-- Prefix of store.go: the leading whitespace-delimited token of the
profile display name — the text before the first space when that space
exists at a positive index, otherwise the whole name. -/
def Server.groupKey (s : Server) : String :=
  match s.name.data.findIdx? (fun c => c = ' ') with
  | some i => if 0 < i then String.mk (s.name.data.take i) else s.name
  | none => s.name

/-- ServerConfig of store.go: the persisted profile list and the index
of the active profile. -/
structure ServerConfig where
  servers : List Server
  activeServer : Int
deriving Repr, DecidableEq, Inhabited

/-- validServerIndex of store.go. -/
def ServerConfig.validIndex (cfg : ServerConfig) (idx : Int) : Prop :=
  0 ≤ idx ∧ idx < (cfg.servers.length : Int)

instance (cfg : ServerConfig) (idx : Int) : Decidable (cfg.validIndex idx) :=
  inferInstanceAs (Decidable (_ ∧ _))

/-- GetActiveServer of store.go: none when no profile exists; an
out-of-range stored index is healed to 0 before the profile at the
index is returned. -/
def getActiveServer (cfg : ServerConfig) : Option Server :=
  if cfg.servers.isEmpty then none
  else if cfg.validIndex cfg.activeServer then
    some (cfg.servers.getD cfg.activeServer.toNat default)
  else some (cfg.servers.getD 0 default)

/-- SetActiveServer of store.go (the durable write and per-group data
reload are outside the model). -/
def setActiveServer (cfg : ServerConfig) (idx : Int) : ServerConfig :=
  if cfg.validIndex idx then { cfg with activeServer := idx } else cfg

/-- AddServer of store.go. -/
def addServer (cfg : ServerConfig) (srv : Server) : ServerConfig :=
  { cfg with servers := cfg.servers ++ [srv] }

/-- UpdateServer of store.go. -/
def updateServer (cfg : ServerConfig) (idx : Int) (srv : Server) : ServerConfig :=
  if cfg.validIndex idx then { cfg with servers := cfg.servers.set idx.toNat srv } else cfg

/-- SaveServerToken of store.go: at a valid index, write the user id
and token into every profile whose group key equals the group key of
the indexed profile; otherwise leave the configuration unchanged. -/
def SaveServerToken (cfg : ServerConfig) (idx : Int) (userID token : String) : ServerConfig :=
  if cfg.validIndex idx then
    let key := (cfg.servers.getD idx.toNat default).groupKey
    { cfg with servers := cfg.servers.map (fun s =>
        if s.groupKey = key then { s with userID := userID, token := token } else s) }
  else cfg

/-- Claim C10: saving an auth token at a valid index writes the same
user id and token into every profile whose name group key (leading
token of the display name) equals that of the indexed profile — not
only the indexed profile — and an out-of-range index leaves every
profile unchanged.  Stated pointwise over the profile list. -/
theorem claim_C10_token_groupwide (cfg : ServerConfig) (idx : Int) (userID token : String) :
    (SaveServerToken cfg idx userID token).servers.length = cfg.servers.length
    ∧ ∀ i : Nat,
      (SaveServerToken cfg idx userID token).servers.get? i
        = (cfg.servers.get? i).map (fun s =>
            if cfg.validIndex idx
               ∧ s.groupKey = (cfg.servers.getD idx.toNat default).groupKey
            then { s with userID := userID, token := token } else s) := by
  by_cases h : cfg.validIndex idx
  · refine ⟨by simp [SaveServerToken, h], fun i => ?_⟩
    simp only [SaveServerToken, if_pos h, List.get?_eq_getElem?, List.getElem?_map]
    cases hget : cfg.servers[i]? with
    | none => rfl
    | some srv =>
      by_cases hk : srv.groupKey = (cfg.servers.getD idx.toNat default).groupKey
      · simp only [List.getD_eq_getElem?_getD] at hk
        simp [hk, h]
      · simp only [List.getD_eq_getElem?_getD] at hk
        simp [hk]
  · refine ⟨by simp [SaveServerToken, h], fun i => ?_⟩
    simp only [SaveServerToken, if_neg h]
    cases cfg.servers.get? i with
    | none => rfl
    | some srv => simp [h]

/-! ## Session state (internal/ui/app.go)

The Model below embeds the bubbletea model of app.go.  Terminal-widget
state (spinner, text-input internals) is reduced to the stored string
values; the api client and the durable store are reduced to the data
the claims read.  The field named sect embeds the Go field "section"
(a reserved word here). -/

/-- Top-level browsing views (Section of app.go). -/
inductive UiSection where
  | resume
  | favorites
  | search
deriving Repr, DecidableEq, Inhabited

/-- Session states (State of app.go). -/
inductive UiState where
  | loading
  | browsing
  | searching
  | serverManage
  | serverEdit
deriving Repr, DecidableEq, Inhabited

/-- Mutable per-item user state (api.UserData): the favorite flag and
the last playback position in ticks. -/
structure UserData where
  isFavorite : Bool
  playbackPositionTicks : Int
deriving Repr, DecidableEq, Inhabited

/-- A catalog item (api.MediaItem restricted to the fields the session
engine reads): identity, display fields, hierarchy links and the
nilable user data. -/
structure MediaItem where
  id : String
  name : String
  type : String
  seriesID : String
  seasonID : String
  parentID : String
  userData : Option UserData
deriving Repr, DecidableEq, Inhabited

/-- One subtitle descriptor (storage.SubtitleInfo). -/
structure SubtitleInfo where
  index : Int
  language : String
  title : String
  isExternal : Bool
  codec : String
deriving Repr, DecidableEq, Inhabited

/-- Cached per-item detail (storage.MediaDetail). -/
structure MediaDetail where
  itemID : String
  sourceID : String
  container : String
  subtitles : List SubtitleInfo
  cachedAt : String
  positionSec : Int
  durationSec : Int
  updatedAt : String
deriving Repr, DecidableEq, Inhabited

/-- A navigation snapshot (NavState of app.go). -/
structure NavState where
  sect : UiSection
  items : List MediaItem
  cursor : Nat
  title : String
  parentID : String
deriving Repr, DecidableEq, Inhabited

/-- The values of the four server-edit text inputs (name, URL,
username, password), in the order initServerInputs creates them. -/
structure ServerInputs where
  nameVal : String
  urlVal : String
  usernameVal : String
  passwordVal : String
deriving Repr, DecidableEq, Inhabited

/-- The session model (Model of app.go). -/
structure Model where
  width : Nat
  height : Nat
  sect : UiSection
  state : UiState
  items : List MediaItem
  totalItems : Nat
  page : Nat
  pageSize : Nat
  cursor : Nat
  navStack : List NavState
  currentLib : Option MediaItem
  status : String
  coverCache : List (String × String)
  detailCache : List (String × MediaDetail)
  sectionCache : List (UiSection × List MediaItem)
  sectionCursor : List (UiSection × Nat)
  store : ServerConfig
  serverCursor : Nat
  serverInputs : ServerInputs
  serverFocused : Nat
  editingServer : Int
  serverLatencies : List (Nat × Nat)
  pingInProgress : Bool
  prevServerGroup : String
deriving Repr, DecidableEq, Inhabited

/-- The favorite flag as the view renders it (item.UserData != nil &&
item.UserData.IsFavorite). -/
def observedFav (it : MediaItem) : Bool :=
  match it.userData with
  | some u => u.isFavorite
  | none => false

/-- syncItemState of app.go: apply one updater to every copy of the
item with the given id — in the currently displayed items, in every
cached section list, and in every navigation snapshot. -/
def syncItemState (m : Model) (itemID : String) (upd : MediaItem → MediaItem) : Model :=
  { m with
    items := m.items.map (fun it => if it.id = itemID then upd it else it),
    sectionCache := m.sectionCache.map (fun p =>
      (p.1, p.2.map (fun it => if it.id = itemID then upd it else it))),
    navStack := m.navStack.map (fun ns =>
      { ns with items := ns.items.map (fun it => if it.id = itemID then upd it else it) }) }

/-- pushNav of app.go: push the current view onto the navigation
stack (the ParentID field keeps its zero value). -/
def pushNav (m : Model) : Model :=
  { m with navStack := m.navStack
      ++ [{ sect := m.sect, items := m.items, cursor := m.cursor,
            title := m.status, parentID := "" }] }

/-- goBack of app.go: pop the most recent navigation snapshot, if any,
and restore its section, items, cursor and title without re-fetching. -/
def goBack (m : Model) : Model :=
  match m.navStack.getLast? with
  | none => m
  | some prev =>
      { m with navStack := m.navStack.dropLast,
               sect := prev.sect,
               items := prev.items,
               cursor := prev.cursor,
               totalItems := prev.items.length,
               status := prev.title }

/-- The itemsMsg completion of Update (success case): install the
fetched list, reset the cursor, enter browsing, and seed the cache of
the current section. -/
def applyItemsMsg (m : Model) (fetched : List MediaItem) (total : Nat) : Model :=
  { m with items := fetched,
           totalItems := total,
           cursor := 0,
           state := UiState.browsing,
           status := toString total ++ " items",
           sectionCache := alUpsert m.sectionCache m.sect fetched,
           sectionCursor := alUpsert m.sectionCursor m.sect 0 }

/-- The synchronous part of refreshCurrentView of app.go: drop the
cache entry of the current section and enter loading (the re-fetch it
schedules arrives later as a separate itemsMsg). -/
def refreshStart (m : Model) : Model :=
  { m with state := UiState.loading,
           sectionCache := alErase m.sectionCache m.sect }

/-- The updater the favoriteMsg completion passes to syncItemState:
allocate the user data when it is nil, then set the favorite flag. -/
def setFavUpd (isFav : Bool) (it : MediaItem) : MediaItem :=
  { it with userData := some { (it.userData.getD default) with isFavorite := isFav } }

/-- The favoriteMsg completion of Update (success case): fan the new
flag out through syncItemState, set the status line, and — only when
the unfavorite happened while the Favorites section is current (the
section is unchanged by the fan-out) — start a refresh of the view. -/
def applyFavoriteMsg (m : Model) (itemID : String) (isFav : Bool) : Model :=
  if m.sect = UiSection.favorites ∧ isFav = false then
    refreshStart { syncItemState m itemID (setFavUpd isFav) with
      status := if isFav then "Added to favorites" else "Removed from favorites" }
  else
    { syncItemState m itemID (setFavUpd isFav) with
      status := if isFav then "Added to favorites" else "Removed from favorites" }

/-- The WindowSizeMsg case of Update: record the new dimensions and
clear the cover cache so images re-render at the new size. -/
def handleResize (m : Model) (w h : Nat) : Model :=
  { m with width := w, height := h, coverCache := [] }

/-- The image requests issued by loadVisibleImages of app.go: the loop
runs from cursor-2 (clipped at 0 by the Nat subtraction) up to but not
including min (cursor+3) (length items), requesting a render for every
item in that window without a cover-cache entry.  The Go loop over
consecutive indices is written as a filter over all indices. -/
def visibleImageIndices (m : Model) : List Nat :=
  if m.items.length = 0 then []
  else
    (List.range m.items.length).filter (fun i =>
      decide (m.cursor - 2 ≤ i)
      && decide (i < min (m.cursor + 3) m.items.length)
      && (alLookup m.coverCache (m.items.getD i default).id).isNone)

/-- The detail request issued by loadVisibleImages of app.go: the item
under the cursor, when it has no detail-cache entry. -/
def visibleDetailRequest (m : Model) : Option String :=
  if h : m.cursor < m.items.length then
    let cur := m.items.getD m.cursor default
    if (alLookup m.detailCache cur.id).isNone then some cur.id else none
  else none

/-- resetForServerSwitch of app.go: return to a fresh Resume view,
clearing the navigation stack, the section caches and the cover
cache; the detail cache and the probe latencies survive only a
same-group switch. -/
def resetForServerSwitch (m : Model) (sameGroup : Bool) : Model :=
  { m with status := "Connected",
           state := UiState.loading,
           sect := UiSection.resume,
           navStack := [],
           currentLib := none,
           page := 0,
           cursor := 0,
           sectionCache := [],
           sectionCursor := [],
           coverCache := [],
           detailCache := if sameGroup then m.detailCache else [],
           serverLatencies := if sameGroup then m.serverLatencies else [] }

/-- The enter branch of handleServerManageKey of app.go: remember the
group key of the profile that was active, make the profile under the
server cursor active, and enter loading while the connect runs. -/
def serverManageEnter (m : Model) : Model :=
  if 0 < m.store.servers.length ∧ m.serverCursor < m.store.servers.length then
    let prev := match getActiveServer m.store with
      | some srv => srv.groupKey
      | none => ""
    { m with prevServerGroup := prev,
             store := setActiveServer m.store (Int.ofNat m.serverCursor),
             state := UiState.loading,
             status := "Switching server..." }
  else m

/-- The samePrefix computation of connectServer of app.go: the switch
counts as staying inside one group when the previous group key is
nonempty and the now-active profile has the same group key. -/
def connectSameGroup (m : Model) : Bool :=
  match getActiveServer m.store with
  | none => false
  | some srv => decide (m.prevServerGroup ≠ "") && decide (srv.groupKey = m.prevServerGroup)

/-- A whole successful server switch: the enter key in the server
manager followed by the successful connectServerMsg completion, which
calls resetForServerSwitch with the samePrefix flag. -/
def switchServer (m : Model) : Model :=
  if 0 < m.store.servers.length ∧ m.serverCursor < m.store.servers.length then
    let m1 := serverManageEnter m
    resetForServerSwitch m1 (connectSameGroup m1)
  else m

/-! ## Concurrent probe subsystem (pingSamePrefix of app.go, Ping of client.go) -/

/-- Ping of client.go: issue one side-effect-free request and return
the elapsed time; the error of the request, if any, is discarded, so
an erroring probe still yields a latency value. -/
def pingLatency (requestErr : Option String) (elapsed : Nat) : Nat :=
  elapsed

/-- The probe targets of pingSamePrefix of app.go: every profile index
whose group key equals the group key of the active profile (none when
no profile is configured). -/
def pingTargets (cfg : ServerConfig) : List Nat :=
  match getActiveServer cfg with
  | none => []
  | some srv =>
      (List.range cfg.servers.length).filter
        (fun i => decide ((cfg.servers.getD i default).groupKey = srv.groupKey))

/-- The channel-join loop of pingSamePrefix: one result per launched
probe arrives in some order, and each is written into the latency
map under its profile index. -/
def collectLatencies (arrival : List Nat) (lat : Nat → Nat) : List (Nat × Nat) :=
  arrival.foldl (fun acc i => alUpsert acc i (lat i)) []

theorem foldl_alUpsert_lookup (arrival : List Nat) (lat : Nat → Nat)
    (acc : List (Nat × Nat)) (i : Nat) :
    alLookup (arrival.foldl (fun a j => alUpsert a j (lat j)) acc) i
      = if i ∈ arrival then some (lat i) else alLookup acc i := by
  induction arrival generalizing acc with
  | nil => simp
  | cons j rest ih =>
    simp only [List.foldl_cons, ih, alLookup_alUpsert]
    by_cases hj : j = i
    · subst hj
      by_cases hr : j ∈ rest <;> simp [hr]
    · have hij : ¬ i = j := fun h => hj h.symm
      by_cases hr : i ∈ rest <;> simp [hr, hj, hij, List.mem_cons]

theorem foldl_alUpsert_length (arrival : List Nat) (lat : Nat → Nat)
    (acc : List (Nat × Nat)) (hnd : arrival.Nodup)
    (hdis : ∀ j ∈ arrival, alLookup acc j = none) :
    (arrival.foldl (fun a j => alUpsert a j (lat j)) acc).length
      = acc.length + arrival.length := by
  induction arrival generalizing acc with
  | nil => simp
  | cons j rest ih =>
    have hj : alLookup acc j = none := hdis j (by simp)
    have hnd2 : rest.Nodup := (List.nodup_cons.mp hnd).2
    have hjrest : j ∉ rest := (List.nodup_cons.mp hnd).1
    have hdis2 : ∀ x ∈ rest, alLookup (alUpsert acc j (lat j)) x = none := by
      intro x hx
      rw [alLookup_alUpsert]
      have : j ≠ x := fun h => hjrest (h ▸ hx)
      simp [this]
      exact hdis x (by simp [hx])
    simp only [List.foldl_cons]
    rw [ih (alUpsert acc j (lat j)) hnd2 hdis2,
        alUpsert_length_of_lookup_none acc j (lat j) hj]
    simp only [List.length_cons]
    omega

/-- Claim C6: for every configured server list, probing the group of
the N profiles whose group key matches the active profile returns a
single mapping with exactly N entries — one latency per matching
profile index — whatever order the concurrent probes complete in, and
even when individual probes error (pingLatency discards the request
error); no partial mapping is delivered. -/
theorem claim_C6_complete_probe_batch (cfg : ServerConfig)
    (errOf : Nat → Option String) (elapsedOf : Nat → Nat)
    (arrival : List Nat)
    (hperm : arrival.Perm (pingTargets cfg)) :
    (collectLatencies arrival (fun i => pingLatency (errOf i) (elapsedOf i))).length
      = (pingTargets cfg).length
    ∧ ∀ i ∈ pingTargets cfg,
        alLookup (collectLatencies arrival (fun i => pingLatency (errOf i) (elapsedOf i))) i
          = some (elapsedOf i) := by
  have hndt : (pingTargets cfg).Nodup := by
    unfold pingTargets
    cases getActiveServer cfg with
    | none => simp
    | some srv => exact (List.nodup_range _).filter _
  have hnda : arrival.Nodup := hperm.nodup_iff.mpr hndt
  constructor
  · unfold collectLatencies
    rw [foldl_alUpsert_length arrival _ [] hnda (by intro j hj; rfl)]
    simpa using hperm.length_eq
  · intro i hi
    unfold collectLatencies
    rw [foldl_alUpsert_lookup]
    simp [hperm.mem_iff.mpr hi, pingLatency]

/-- A profile list with two profiles in group Home and one in group
Remote, with the first profile active. -/
def probeCfg : ServerConfig :=
  { servers := [
      { name := "Home Main", url := "http://a", username := "", password := "", userID := "", token := "" },
      { name := "Home Backup", url := "http://b", username := "", password := "", userID := "", token := "" },
      { name := "Remote X", url := "http://c", username := "", password := "", userID := "", token := "" }],
    activeServer := 0 }

/-- Witness for claim C6: with targets 0 and 1 (group Home), arrival
order 1 then 0, and probe 1 erroring, the delivered mapping still has
exactly 2 entries and holds the latency of the erroring probe. -/
theorem claim_C6_witness :
    (collectLatencies [1, 0]
      (fun i => pingLatency (if i = 1 then some "timeout" else none) (100 + i))).length = 2
    ∧ alLookup (collectLatencies [1, 0]
        (fun i => pingLatency (if i = 1 then some "timeout" else none) (100 + i))) 1
      = some 101 := by
  have h := claim_C6_complete_probe_batch probeCfg
    (fun i => if i = 1 then some "timeout" else none) (fun i => 100 + i) [1, 0] (by decide)
  refine ⟨?_, ?_⟩
  · rw [h.1]; decide
  · have h2 := h.2 1 (by decide)
    simpa using h2

/-! ## Resize handling and the cursor window (claim C5) -/

/-- Claim C5: immediately after a terminal-resize event is handled the
image cache holds no entries, and every image render subsequently
requested is for an item inside the cursor window — an index between
cursor-2 and cursor+2, clipped to the bounds of the current item
sequence. -/
theorem claim_C5_resize_clears_cover_cache (m : Model) (w h : Nat) :
    (handleResize m w h).coverCache = []
    ∧ ∀ i ∈ visibleImageIndices (handleResize m w h),
        m.cursor ≤ i + 2 ∧ i ≤ m.cursor + 2 ∧ i < m.items.length := by
  refine ⟨rfl, ?_⟩
  intro i hi
  unfold visibleImageIndices at hi
  by_cases hempty : (handleResize m w h).items.length = 0
  · rw [if_pos hempty] at hi
    simp at hi
  · rw [if_neg hempty] at hi
    have hmem := List.mem_filter.mp hi
    have hrange := List.mem_range.mp hmem.1
    have hcond := hmem.2
    simp only [Bool.and_eq_true, decide_eq_true_eq] at hcond
    have h1 : (handleResize m w h).cursor - 2 ≤ i := hcond.1.1
    have h2 : i < min ((handleResize m w h).cursor + 3) (handleResize m w h).items.length :=
      hcond.1.2
    have hcur : (handleResize m w h).cursor = m.cursor := rfl
    have hits : (handleResize m w h).items = m.items := rfl
    rw [hcur] at h1
    rw [hcur, hits] at h2
    have h2a := Nat.lt_min.mp h2
    exact ⟨by omega, by omega, h2a.2⟩

/-- A concrete media item with the given id and favorite flag. -/
def sampleItem (i : String) (fav : Bool) : MediaItem :=
  { id := i, name := "Item " ++ i, type := "Movie",
    seriesID := "", seasonID := "", parentID := "",
    userData := some { isFavorite := fav, playbackPositionTicks := 0 } }

/-- A baseline session model all concrete scenarios below start from. -/
def baseModel : Model :=
  { width := 80, height := 24, sect := UiSection.resume, state := UiState.browsing,
    items := [], totalItems := 0, page := 0, pageSize := 20, cursor := 0,
    navStack := [], currentLib := none, status := "", coverCache := [],
    detailCache := [], sectionCache := [], sectionCursor := [],
    store := { servers := [], activeServer := 0 }, serverCursor := 0,
    serverInputs := { nameVal := "", urlVal := "", usernameVal := "", passwordVal := "" },
    serverFocused := 0, editingServer := -1,
    serverLatencies := [], pingInProgress := false, prevServerGroup := "" }

/-- A browsing model with six items, the cursor on index 3, and a
populated cover cache. -/
def resizeModel : Model :=
  { baseModel with
    items := [sampleItem "a" false, sampleItem "b" false, sampleItem "c" false,
              sampleItem "d" false, sampleItem "e" false, sampleItem "f" false],
    totalItems := 6, cursor := 3,
    coverCache := [("a", "oldart"), ("d", "oldart")] }

/-- Witness for claim C5: after resizing the six-item model the cover
cache is empty, and the requested index 1 (= cursor-2) lies inside the
cursor window. -/
theorem claim_C5_witness :
    (handleResize resizeModel 100 30).coverCache = []
    ∧ (resizeModel.cursor ≤ 1 + 2 ∧ 1 ≤ resizeModel.cursor + 2
        ∧ 1 < resizeModel.items.length) := by
  have h := claim_C5_resize_clears_cover_cache resizeModel 100 30
  exact ⟨h.1, h.2 1 (by decide)⟩

/-! ## Server switching and the shared-group caches (claim C4) -/

/-- Two profiles in group HomeNAS, the first one active. -/
def homeNasCfg : ServerConfig :=
  { servers := [
      { name := "HomeNAS Main", url := "http://a", username := "", password := "",
        userID := "", token := "" },
      { name := "HomeNAS Backup", url := "http://b", username := "", password := "",
        userID := "", token := "" }],
    activeServer := 0 }

/-- A concrete cached detail entry. -/
def sampleDetail : MediaDetail :=
  { itemID := "i1", sourceID := "s1", container := "mkv", subtitles := [],
    cachedAt := "", positionSec := 0, durationSec := 0, updatedAt := "" }

/-- A model over the HomeNAS profiles with the server cursor on the
second profile and populated cover, detail and latency caches. -/
def switchModel : Model :=
  { baseModel with
    store := homeNasCfg,
    serverCursor := 1,
    coverCache := [("i1", "art")],
    detailCache := [("i1", sampleDetail)],
    serverLatencies := [(0, 12)] }

/-- Counterexample to claim C4 as stated: switching between the two
HomeNAS profiles is a same-group switch, yet the image cache does not
stay unchanged — resetForServerSwitch empties it unconditionally. -/
theorem claim_C4_counterexample :
    (getActiveServer switchModel.store).map Server.groupKey = some "HomeNAS"
    ∧ (switchModel.store.servers.getD 1 default).groupKey = "HomeNAS"
    ∧ switchModel.coverCache ≠ []
    ∧ (switchServer switchModel).coverCache ≠ switchModel.coverCache := by
  refine ⟨by decide, by decide, by decide, by decide⟩

/-- Claim C4 (amended): a successful switch always empties the
ImageCache; the DetailCache (and the probe latencies) survive exactly
a same-group switch and are emptied on a different-group switch. -/
theorem claim_C4_amended (m : Model)
    (hg : 0 < m.store.servers.length ∧ m.serverCursor < m.store.servers.length) :
    (switchServer m).coverCache = []
    ∧ (connectSameGroup (serverManageEnter m) = true →
        (switchServer m).detailCache = m.detailCache)
    ∧ (connectSameGroup (serverManageEnter m) = false →
        (switchServer m).detailCache = []) := by
  have hdetail : (serverManageEnter m).detailCache = m.detailCache := by
    unfold serverManageEnter
    rw [if_pos hg]
  refine ⟨?_, ?_, ?_⟩
  · unfold switchServer
    rw [if_pos hg]
    rfl
  · intro ht
    unfold switchServer
    rw [if_pos hg]
    show (resetForServerSwitch (serverManageEnter m)
      (connectSameGroup (serverManageEnter m))).detailCache = m.detailCache
    rw [ht]
    simp [resetForServerSwitch, hdetail]
  · intro hf
    unfold switchServer
    rw [if_pos hg]
    show (resetForServerSwitch (serverManageEnter m)
      (connectSameGroup (serverManageEnter m))).detailCache = []
    rw [hf]
    simp [resetForServerSwitch]

/-- Witness for claim C4 (amended): the same-group HomeNAS switch
empties the cover cache and preserves the detail cache. -/
theorem claim_C4_witness :
    (switchServer switchModel).coverCache = []
    ∧ (switchServer switchModel).detailCache = switchModel.detailCache := by
  have h := claim_C4_amended switchModel (by decide)
  exact ⟨h.1, h.2.1 (by decide)⟩

/-! ## Server-edit validation (claim C8) -/

/-- The keys handleServerEditKey of app.go handles itself; any other
key is forwarded to the focused text input (outside the model). -/
inductive EditKey where
  | esc
  | tab
  | shiftTab
  | enter
deriving Repr, DecidableEq

/-- handleServerEditKey of app.go: escape returns to the server
manager; tab and shift-tab cycle the focus over the four inputs; enter
validates the input values and saves the profile — rejecting an empty
URL before any mutation, defaulting an empty name to the URL, adding a
new profile when no profile is being edited and otherwise updating the
edited profile while keeping its stored credentials. -/
def handleServerEditKey (m : Model) (k : EditKey) : Model :=
  match k with
  | EditKey.esc => { m with state := UiState.serverManage }
  | EditKey.tab => { m with serverFocused := (m.serverFocused + 1) % 4 }
  | EditKey.shiftTab => { m with serverFocused := (m.serverFocused + 3) % 4 }
  | EditKey.enter =>
      let srv : Server :=
        { name := m.serverInputs.nameVal, url := m.serverInputs.urlVal,
          username := m.serverInputs.usernameVal, password := m.serverInputs.passwordVal,
          userID := "", token := "" }
      if srv.url = "" then { m with status := "URL is required" }
      else
        let srv1 := if srv.name = "" then { srv with name := srv.url } else srv
        if m.editingServer < 0 then
          let store1 := addServer m.store srv1
          { m with store := store1,
                   serverCursor := store1.servers.length - 1,
                   state := UiState.serverManage }
        else
          let old := m.store.servers.getD m.editingServer.toNat default
          { m with store := updateServer m.store m.editingServer
                     { srv1 with userID := old.userID, token := old.token },
                   state := UiState.serverManage }

/-- Claim C8: saving a server profile whose URL input is empty is
rejected before any mutation — the stored server list is unchanged,
the edit inputs are retained, the session stays in the server-edit
state, and the status reports the error. -/
theorem claim_C8_empty_url_rejected (m : Model)
    (hstate : m.state = UiState.serverEdit)
    (hurl : m.serverInputs.urlVal = "") :
    (handleServerEditKey m EditKey.enter).store.servers = m.store.servers
    ∧ (handleServerEditKey m EditKey.enter).serverInputs = m.serverInputs
    ∧ (handleServerEditKey m EditKey.enter).state = UiState.serverEdit
    ∧ (handleServerEditKey m EditKey.enter).status = "URL is required" := by
  have hred : handleServerEditKey m EditKey.enter = { m with status := "URL is required" } := by
    unfold handleServerEditKey
    simp [hurl]
  rw [hred]
  exact ⟨rfl, rfl, hstate, rfl⟩

/-- A one-profile store for the edit scenario. -/
def editCfg : ServerConfig :=
  { servers := [
      { name := "Old", url := "http://o", username := "", password := "",
        userID := "", token := "" }],
    activeServer := 0 }

/-- A server-edit session with a name typed in but the URL left empty,
over a one-profile store. -/
def editModel : Model :=
  { baseModel with
    state := UiState.serverEdit,
    serverInputs := { nameVal := "My Server", urlVal := "", usernameVal := "u", passwordVal := "p" },
    store := editCfg }

/-- Witness for claim C8: pressing enter with the empty URL leaves the
profile list and inputs of editModel unchanged, stays in server-edit,
and reports the error. -/
theorem claim_C8_witness :
    (handleServerEditKey editModel EditKey.enter).store.servers = editModel.store.servers
    ∧ (handleServerEditKey editModel EditKey.enter).serverInputs = editModel.serverInputs
    ∧ (handleServerEditKey editModel EditKey.enter).state = UiState.serverEdit
    ∧ (handleServerEditKey editModel EditKey.enter).status = "URL is required" :=
  claim_C8_empty_url_rejected editModel rfl rfl

/-! ## The fan-out mutation invariant (claim C1) -/

/-- The browsing operations of the claim: a favorite-toggle completion
for some item, a drill-in (navigate-away: push the current view, then
receive the child list), and a navigate-back. -/
inductive NavOp where
  | toggleFav (itemID : String) (isFav : Bool)
  | navAway (fetched : List MediaItem)
  | navBack
deriving Repr, DecidableEq

/-- Run one browsing operation against the model. -/
def applyNavOp (m : Model) : NavOp → Model
  | NavOp.toggleFav itemID isFav => applyFavoriteMsg m itemID isFav
  | NavOp.navAway fetched => applyItemsMsg (pushNav m) fetched fetched.length
  | NavOp.navBack => goBack m

/-- Run a sequence of browsing operations. -/
def runNavOps (m : Model) (ops : List NavOp) : Model :=
  ops.foldl applyNavOp m

/-- An operation is consistent with an acknowledged toggle of the
given item: it is not another toggle of the same item, and any list
fetched from the remote catalog shows the item, when present, with
the acknowledged flag (the toggle completion only arrives after the
server accepted the mutation). -/
def opConsistent (itemID : String) (b : Bool) : NavOp → Bool
  | NavOp.toggleFav id2 _ => id2 != itemID
  | NavOp.navAway fetched => fetched.all (fun it => it.id != itemID || observedFav it == b)
  | NavOp.navBack => true

/-- Every copy of the item — in the displayed items, in every cached
section list, and in every navigation snapshot — shows the flag. -/
def FavEverywhere (itemID : String) (b : Bool) (m : Model) : Prop :=
  (∀ it ∈ m.items, it.id = itemID → observedFav it = b)
  ∧ (∀ p ∈ m.sectionCache, ∀ it ∈ p.2, it.id = itemID → observedFav it = b)
  ∧ (∀ ns ∈ m.navStack, ∀ it ∈ ns.items, it.id = itemID → observedFav it = b)

theorem updList_self (itemID : String) (b : Bool) (l : List MediaItem) :
    ∀ it ∈ l.map (fun x => if x.id = itemID then setFavUpd b x else x),
      it.id = itemID → observedFav it = b := by
  intro it hit hid
  rcases List.mem_map.mp hit with ⟨x, hx, rfl⟩
  by_cases h : x.id = itemID
  · rw [if_pos h]
    rfl
  · rw [if_neg h] at hid
    exact absurd hid h

theorem updList_other {itemID id2 : String} {b b2 : Bool} (hne : id2 ≠ itemID)
    (l : List MediaItem)
    (hold : ∀ it ∈ l, it.id = itemID → observedFav it = b) :
    ∀ it ∈ l.map (fun x => if x.id = id2 then setFavUpd b2 x else x),
      it.id = itemID → observedFav it = b := by
  intro it hit hid
  rcases List.mem_map.mp hit with ⟨x, hx, rfl⟩
  by_cases h : x.id = id2
  · rw [if_pos h] at hid
    have hxid : x.id = itemID := hid
    exact absurd (h.symm.trans hxid) hne
  · rw [if_neg h] at hid ⊢
    exact hold x hx hid

theorem favEverywhere_sync_self (m : Model) (itemID : String) (b : Bool) :
    FavEverywhere itemID b (syncItemState m itemID (setFavUpd b)) := by
  refine ⟨updList_self itemID b m.items, ?_, ?_⟩
  · intro p hp it hit hid
    rcases List.mem_map.mp hp with ⟨q, hq, rfl⟩
    exact updList_self itemID b q.2 it hit hid
  · intro ns hns it hit hid
    rcases List.mem_map.mp hns with ⟨ns0, hns0, rfl⟩
    exact updList_self itemID b ns0.items it hit hid

theorem favEverywhere_sync_other {itemID id2 : String} {b : Bool} (b2 : Bool)
    (m : Model) (hne : id2 ≠ itemID) (h : FavEverywhere itemID b m) :
    FavEverywhere itemID b (syncItemState m id2 (setFavUpd b2)) := by
  refine ⟨updList_other hne m.items h.1, ?_, ?_⟩
  · intro p hp it hit hid
    rcases List.mem_map.mp hp with ⟨q, hq, rfl⟩
    exact updList_other hne q.2 (h.2.1 q hq) it hit hid
  · intro ns hns it hit hid
    rcases List.mem_map.mp hns with ⟨ns0, hns0, rfl⟩
    exact updList_other hne ns0.items (h.2.2 ns0 hns0) it hit hid

theorem favEverywhere_applyFavoriteMsg_self (m : Model) (itemID : String) (b : Bool) :
    FavEverywhere itemID b (applyFavoriteMsg m itemID b) := by
  have h1 := favEverywhere_sync_self m itemID b
  unfold applyFavoriteMsg
  split
  · exact ⟨h1.1, fun p hp => h1.2.1 p (mem_alErase _ _ p hp), h1.2.2⟩
  · exact ⟨h1.1, h1.2.1, h1.2.2⟩

theorem favEverywhere_applyNavOp {itemID : String} {b : Bool} (m : Model) (op : NavOp)
    (hc : opConsistent itemID b op = true)
    (h : FavEverywhere itemID b m) :
    FavEverywhere itemID b (applyNavOp m op) := by
  cases op with
  | toggleFav id2 b2 =>
    have hne : id2 ≠ itemID := by simpa [opConsistent] using hc
    have h1 := favEverywhere_sync_other b2 m hne h
    show FavEverywhere itemID b (applyFavoriteMsg m id2 b2)
    unfold applyFavoriteMsg
    split
    · exact ⟨h1.1, fun p hp => h1.2.1 p (mem_alErase _ _ p hp), h1.2.2⟩
    · exact ⟨h1.1, h1.2.1, h1.2.2⟩
  | navAway fetched =>
    have hf : ∀ it ∈ fetched, it.id = itemID → observedFav it = b := by
      have hc2 : ∀ x ∈ fetched, ¬ x.id = itemID ∨ observedFav x = b := by
        simpa [opConsistent] using hc
      intro it hit hid
      rcases hc2 it hit with h2 | h2
      · exact absurd hid h2
      · exact h2
    show FavEverywhere itemID b (applyItemsMsg (pushNav m) fetched fetched.length)
    refine ⟨hf, ?_, ?_⟩
    · intro p hp it hit hid
      rcases mem_alUpsert _ _ _ p hp with h2 | h2
      · rw [h2] at hit
        exact hf it hit hid
      · exact h.2.1 p h2 it hit hid
    · intro ns hns it hit hid
      rcases List.mem_append.mp hns with h2 | h2
      · exact h.2.2 ns h2 it hit hid
      · have h3 := List.mem_singleton.mp h2
        rw [h3] at hit
        exact h.1 it hit hid
  | navBack =>
    show FavEverywhere itemID b (goBack m)
    unfold goBack
    split
    · exact h
    · next prev heq =>
      have hprev : prev ∈ m.navStack := by
        rcases List.mem_getLast?_eq_getLast (show prev ∈ m.navStack.getLast? from heq)
          with ⟨hne, h2⟩
        rw [h2]
        exact List.getLast_mem hne
      exact ⟨h.2.2 prev hprev, h.2.1,
        fun ns hns => h.2.2 ns (List.mem_of_mem_dropLast hns)⟩

theorem favEverywhere_runNavOps {itemID : String} {b : Bool} (ops : List NavOp) (m : Model)
    (h : FavEverywhere itemID b m)
    (hops : ∀ op ∈ ops, opConsistent itemID b op = true) :
    FavEverywhere itemID b (runNavOps m ops) := by
  induction ops generalizing m with
  | nil => exact h
  | cons op rest ih =>
    exact ih (applyNavOp m op)
      (favEverywhere_applyNavOp m op (hops op (by simp)) h)
      (fun o ho => hops o (by simp [ho]))

/-- Claim C1: after a favorite-toggle completion for an item, through
any consistent sequence of toggle-favorite (of other items),
navigate-away and navigate-back operations, every copy of the item —
displayed items, cached section lists, navigation snapshots — shows
the toggled flag; in particular the flag observed after a further
navigate-back equals the flag the toggle set.  Moreover the single
mutation operation syncItemState updates the matching item, by id, in
the displayed item sequence, in every cached section list and in
every navigation snapshot. -/
theorem claim_C1_fanout_invariant (m : Model) (itemID : String) (b : Bool)
    (ops : List NavOp)
    (hops : ∀ op ∈ ops, opConsistent itemID b op = true) :
    FavEverywhere itemID b (runNavOps (applyFavoriteMsg m itemID b) ops)
    ∧ (∀ it ∈ (goBack (runNavOps (applyFavoriteMsg m itemID b) ops)).items,
        it.id = itemID → observedFav it = b)
    ∧ (∀ upd : MediaItem → MediaItem,
        (syncItemState m itemID upd).items
          = m.items.map (fun it => if it.id = itemID then upd it else it)
        ∧ (syncItemState m itemID upd).sectionCache
          = m.sectionCache.map (fun p =>
              (p.1, p.2.map (fun it => if it.id = itemID then upd it else it)))
        ∧ (syncItemState m itemID upd).navStack
          = m.navStack.map (fun ns =>
              { ns with items := ns.items.map (fun it => if it.id = itemID then upd it else it) })) := by
  have hrun := favEverywhere_runNavOps ops (applyFavoriteMsg m itemID b)
    (favEverywhere_applyFavoriteMsg_self m itemID b) hops
  refine ⟨hrun, ?_, fun upd => ⟨rfl, rfl, rfl⟩⟩
  exact (favEverywhere_applyNavOp _ NavOp.navBack rfl hrun).1

/-- A browsing model in which item x is visible in the current items,
in the Resume section cache, and in one navigation snapshot, with the
favorite flag still off everywhere. -/
def favModel : Model :=
  { baseModel with
    items := [sampleItem "x" false, sampleItem "z" false],
    sectionCache := [(UiSection.resume, [sampleItem "x" false])],
    navStack := [{ sect := UiSection.resume, items := [sampleItem "x" false],
                   cursor := 0, title := "Resume", parentID := "" }] }

/-- Drill into an unrelated child list, then navigate back. -/
def favOps : List NavOp := [NavOp.navAway [sampleItem "y" false], NavOp.navBack]

/-- Witness for claim C1: toggling item x to favorite, drilling into
an unrelated list and navigating back twice shows x with the toggled
flag in the restored view. -/
theorem claim_C1_witness :
    observedFav ((goBack (runNavOps (applyFavoriteMsg favModel "x" true) favOps)).items.getD 0
      default) = true := by
  have h := claim_C1_fanout_invariant favModel "x" true favOps (by decide)
  exact h.2.1 ((goBack (runNavOps (applyFavoriteMsg favModel "x" true) favOps)).items.getD 0
    default) (by decide) (by decide)

end Ember
